import Mathlib

/-!
Verification of the PythonCAN-Utils host-side CAN tooling.

This file gives a shallow embedding, in Lean 4, of the parts of the
repository that the examined properties speak about:

* `src/drivers/Firmware_Flasher.py` — the CAN bootloader flashing engine
  (response waiting with heartbeat filtering, reset handshake, padding,
  truncation, write chunking, jump semantics);
* `src/drivers/NetworkCAN_Driver.py` — the HTTP relay driver (receive-loop
  timestamp deduplication and message parsing, `CANMessage.__post_init__`);
* `src/drivers/Bluetooth_Driver.py` — the Bluetooth SPP driver
  (`_parse_message`);
* `src/GUI_Master.py` — the per-ID statistics table
  (`_on_message_received`) and its DBC lookup-id computation;
* `src/webserver/backend/api.py` — `decode_message` lookup-id computation
  and the transmit-list save/load endpoints.

Python functions become Lean functions; a Python loop that reads frames
from the driver until a timeout becomes a function over the finite list of
frames that arrive before the timeout expires; an uncaught Python exception
(e.g. an `IndexError` raised while formatting a debug message) becomes
`Except.error ()`.  Machine integers are modelled as `Nat`/`Int` (the
Python integers involved are unbounded anyway); byte strings are
`List Nat`; float timestamps are modelled as `Int` since only their
ordering is used.
-/

/-! ### Bootloader protocol constants (src/drivers/Firmware_Flasher.py) -/

def CAN_HOST_ID : Nat := 0x18000701

def CAN_BOOTLOADER_ID : Nat := 0x18000700

def RESP_ACK : Nat := 0x10

def RESP_NACK : Nat := 0x11

def RESP_READY : Nat := 0x14

def RESP_DATA : Nat := 0x15

def APP_START_ADDRESS : Nat := 0x08008000

def APP_MAX_SIZE : Nat := 208 * 1024

def WRITE_CHUNK_SIZE : Nat := 4

/-- A received CAN frame as seen by the flasher (`msg.id`, `msg.data`). -/
structure CanMsg where
  id : Nat
  data : List Nat
  deriving DecidableEq, Repr

/-- The canonical-heartbeat test used by `_wait_response` (lines 164-167)
and by `set_address` (lines 301-304): the payload is non-empty, its first
byte is `RESP_READY` (0x14), it has at least three bytes, and bytes 1 and 2
are `0x01` and `0x00`. -/
def isHeartbeat (d : List Nat) : Bool :=
  match d with
  | b0 :: b1 :: b2 :: _ => b0 == RESP_READY && b1 == 0x01 && b2 == 0x00
  | _ => false

/-- `FirmwareFlasher._wait_response`: repeatedly read frames until the
timeout; ignore frames whose arbitration id is not `CAN_BOOTLOADER_ID`;
skip canonical heartbeats; return the first other frame.  The argument is
the list of frames the driver hands over before the timeout expires, so
reaching `[]` is the timeout (`return None`).  For a target frame with an
empty payload the source evaluates `msg.data[0]` inside the debug print on
line 173, which raises `IndexError`; that is `Except.error ()` here. -/
def wait_response : List CanMsg → Except Unit (Option CanMsg)
  | [] => .ok none
  | m :: rest =>
    if m.id = CAN_BOOTLOADER_ID then
      if isHeartbeat m.data then wait_response rest
      else
        match m.data with
        | [] => .error ()
        | _ :: _ => .ok (some m)
    else wait_response rest

/-- The inline wait loop of `FirmwareFlasher.set_address` (lines 289-313):
same frame filtering as `_wait_response`, but the result is
`msg.data[0] == RESP_ACK` for the first non-heartbeat target frame, and
`False` on timeout.  Line 309 formats `msg.data[0]`, so an empty payload
again raises `IndexError` (`Except.error ()`). -/
def set_address_wait : List CanMsg → Except Unit Bool
  | [] => .ok false
  | m :: rest =>
    if m.id = CAN_BOOTLOADER_ID then
      if isHeartbeat m.data then set_address_wait rest
      else
        match m.data with
        | [] => .error ()
        | b :: _ => .ok (b == RESP_ACK)
    else set_address_wait rest

/-- The wait loop of `FirmwareFlasher.send_reset_message` (lines 204-211):
scan the frames arriving within 3 s and return the first frame whose id is
`CAN_BOOTLOADER_ID` and whose first payload byte is `RESP_READY`; every
other frame (other ids, or target frames that are not READY) is skipped. -/
def reset_wait_ready : List CanMsg → Option CanMsg
  | [] => none
  | m :: rest =>
    if m.id = CAN_BOOTLOADER_ID then
      match m.data with
      | b :: _ => if b = RESP_READY then some m else reset_wait_ready rest
      | [] => reset_wait_ready rest
    else reset_wait_ready rest

/-- `FirmwareFlasher.jump_to_application` (lines 510-531), applied to the
list of frames arriving within the 0.5 s wait: ACK first byte gives
success, NACK first byte gives failure, anything else — including no
response at all — gives success ("no response might mean bootloader
jumped").  An `IndexError` escaping `_wait_response` propagates. -/
def jump_to_application (frames : List CanMsg) : Except Unit Bool :=
  match wait_response frames with
  | .error e => .error e
  | .ok none => .ok true
  | .ok (some m) =>
    match m.data with
    | [] => .error ()
    | b :: _ =>
      if b = RESP_ACK then .ok true
      else if b = RESP_NACK then .ok false
      else .ok true

/-- `FirmwareFlasher.pad_to_4byte_boundary` (lines 533-539). -/
def pad_to_4byte_boundary (data : List Nat) : List Nat :=
  let padding_needed := (4 - data.length % 4) % 4
  if padding_needed > 0 then data ++ List.replicate padding_needed 0xFF
  else data

/-- The sequence of 4-byte data chunks that `write_firmware`
(lines 391-409) sends as `WRITE_DATA` payloads: successive 4-byte slices
of the firmware, the final partial slice padded with `0xFF`. -/
def writeChunks (fw : List Nat) : List (List Nat) :=
  if h : fw = [] then []
  else
    let chunk := fw.take 4
    (chunk ++ List.replicate (4 - chunk.length) 0xFF) :: writeChunks (fw.drop 4)
  termination_by fw.length
  decreasing_by
    have hpos : 0 < fw.length := List.length_pos.mpr h
    simp [List.length_drop]
    omega

/-- One per-wait response of the target, abstracting what
`_wait_response` eventually yields for a given command. -/
inductive TargetResp where
  | ack
  | nack (code : Nat)
  | unexpected (firstByte : Nat)
  | silent
  deriving DecidableEq, Repr

def TargetResp.isAck : TargetResp → Bool
  | .ack => true
  | _ => false

/-- Progress reporting (`FlashProgress` dataclass and `_report_progress`). -/
structure FlashProgress where
  stage : String
  progress : Nat
  message : String
  deriving DecidableEq, Repr

/-- The behaviour of the flashing target for one flash session, giving the
outcome of each command/response exchange. `writeAcks` abstracts "every
pipelined WRITE_DATA batch is acknowledged in full"; `verifyOk` abstracts
"every read-back returned exactly the bytes previously written". -/
structure TargetEnv where
  resetReady : Bool
  eraseResp : TargetResp
  setAddrResp : TargetResp
  writeAcks : Bool
  verifyOk : Bool
  jumpResp : TargetResp
  deriving DecidableEq, Repr

/-- A target that acknowledges everything — the nominal flashing session. -/
def idealTarget : TargetEnv :=
  { resetReady := true, eraseResp := .ack, setAddrResp := .ack,
    writeAcks := true, verifyOk := true, jumpResp := .ack }

/-- `FirmwareFlasher.write_firmware` (lines 363-433): set the start
address, then stream 4-byte chunks with pipelined acknowledgements.
Result: success flag and the list of WRITE_DATA chunk payloads actually
sent.  With `fw = []` the while loop body never runs and the function
returns `True` having sent nothing.  If a batch acknowledgement check
fails, at most the first batch of `batch_size = 16` chunks was sent. -/
def write_firmware (fw : List Nat) (env : TargetEnv) : Bool × List (List Nat) :=
  if env.setAddrResp.isAck = false then (false, [])
  else if fw.isEmpty then (true, [])
  else if env.writeAcks then (true, writeChunks fw)
  else (false, (writeChunks fw).take 16)

/-- `FirmwareFlasher.verify_flash` (lines 435-508): with an empty expected
image the `while bytes_verified < len(expected_data)` loop never runs and
verification succeeds immediately; otherwise it succeeds exactly when all
read-backs match (abstracted by `env.verifyOk`). -/
def verify_flash (expected : List Nat) (env : TargetEnv) : Bool :=
  if expected.isEmpty then true else env.verifyOk

/-- The load/truncate/pad preamble of `FirmwareFlasher.flash_firmware`
(lines 557-571): report loading, truncate images larger than
`APP_MAX_SIZE` (reporting the truncation), then pad to a 4-byte boundary.
Returns the prepared image together with the progress events emitted so
far, in order. -/
def flashPrepare (raw : List Nat) (fname : String) : List Nat × List FlashProgress :=
  let loadEv : FlashProgress :=
    { stage := "write", progress := 0, message := "Loading " ++ fname ++ "..." }
  if raw.length > APP_MAX_SIZE then
    (pad_to_4byte_boundary (raw.take APP_MAX_SIZE),
     [loadEv,
      { stage := "write", progress := 0,
        message := "Truncating to " ++ toString APP_MAX_SIZE ++ " bytes" }])
  else (pad_to_4byte_boundary raw, [loadEv])

/-- Outcome of a whole `flash_firmware` run: overall success, the
WRITE_DATA chunk payloads sent, and the progress events emitted.
Per-chunk `write` progress updates (line 424) are elided from the event
list; the stage-level events around them are kept in order. -/
structure FlashOutcome where
  success : Bool
  writes : List (List Nat)
  events : List FlashProgress
  deriving DecidableEq, Repr

/-- `FirmwareFlasher.flash_firmware` (lines 541-602) with `verify = True`
and `jump = True`: prepare the image, reset the module, erase, write,
verify, jump, reporting progress along the way.  Responses of the target
are supplied by `env`.  Note there is no image-size validation beyond the
truncation: an empty image flows through every stage. -/
def flash_firmware (raw : List Nat) (fname : String) (env : TargetEnv) : FlashOutcome :=
  let p := flashPrepare raw fname
  let fw := p.1
  let prepEvents := p.2
  if env.resetReady = false then
    { success := false, writes := [],
      events := prepEvents ++
        [{ stage := "reset", progress := 0, message := "Resetting..." },
         { stage := "error", progress := 0, message := "No READY message from bootloader" }] }
  else
    let resetEvents :=
      [{ stage := "reset", progress := 0, message := "Resetting..." },
       { stage := "reset", progress := 100, message := "Bootloader ready" }]
    match env.eraseResp with
    | .ack =>
      let eraseEvents :=
        [{ stage := "erase", progress := 0, message := "Erasing flash memory..." },
         { stage := "erase", progress := 100, message := "Flash erased successfully" }]
      let w := write_firmware fw env
      if w.1 = false then
        { success := false, writes := w.2,
          events := prepEvents ++ resetEvents ++ eraseEvents ++
            [{ stage := "write", progress := 0, message := "Writing firmware..." },
             { stage := "error", progress := 0, message := "Write failed" }] }
      else
        let writeEvents :=
          [{ stage := "write", progress := 0, message := "Writing firmware..." },
           { stage := "write", progress := 100, message := "Write complete" }]
        if verify_flash fw env = false then
          { success := false, writes := w.2,
            events := prepEvents ++ resetEvents ++ eraseEvents ++ writeEvents ++
              [{ stage := "verify", progress := 0, message := "Verifying flash..." },
               { stage := "error", progress := 0, message := "Verification failed" }] }
        else
          let verifyEvents :=
            [{ stage := "verify", progress := 0, message := "Verifying flash..." },
             { stage := "verify", progress := 100, message := "Verification successful" }]
          let jumpEvents :=
            [{ stage := "jump", progress := 0, message := "Starting application..." }] ++
            (match env.jumpResp with
             | .ack =>
               [{ stage := "jump", progress := 100, message := "Application started" }]
             | .nack _ =>
               [{ stage := "error", progress := 0, message := "Jump failed" },
                { stage := "error", progress := 0, message := "Jump command may have failed" }]
             | _ =>
               [{ stage := "jump", progress := 100, message := "Jump command sent" }])
          { success := true, writes := w.2,
            events := prepEvents ++ resetEvents ++ eraseEvents ++ writeEvents ++
              verifyEvents ++ jumpEvents ++
              [{ stage := "complete", progress := 100,
                 message := "Flashing completed successfully!" }] }
    | .nack _ =>
      { success := false, writes := [],
        events := prepEvents ++ resetEvents ++
          [{ stage := "erase", progress := 0, message := "Erasing flash memory..." },
           { stage := "error", progress := 0, message := "Erase failed" }] }
    | .unexpected _ =>
      { success := false, writes := [],
        events := prepEvents ++ resetEvents ++
          [{ stage := "erase", progress := 0, message := "Erasing flash memory..." },
           { stage := "error", progress := 0, message := "Unexpected erase response" }] }
    | .silent =>
      { success := false, writes := [],
        events := prepEvents ++ resetEvents ++
          [{ stage := "erase", progress := 0, message := "Erasing flash memory..." },
           { stage := "error", progress := 0, message := "Erase timeout" }] }

/-! ### Dynamically-typed JSON field values shared by the relay and
Bluetooth message parsers: the server may deliver an arbitration id as an
integer or as a string, and payload data as a list of byte values or as a
hex string. -/

/-- The value found under the `id` key of a server message dict.  A dict
without the key behaves as `.int 0` (`msg_data.get('id', 0)`). -/
inductive IdVal where
  | int (n : Nat)
  | str (s : List Char)
  deriving DecidableEq, Repr

/-- The value found under the `data` key: a JSON array of byte values or a
hex string.  A dict without the key behaves as `.list []`. -/
inductive DataVal where
  | list (l : List Nat)
  | str (s : List Char)
  deriving DecidableEq, Repr

/-- Value of one hexadecimal digit character, if it is one. -/
def hexVal? (c : Char) : Option Nat :=
  if '0' ≤ c ∧ c ≤ '9' then some (c.toNat - '0'.toNat)
  else if 'a' ≤ c ∧ c ≤ 'f' then some (c.toNat - 'a'.toNat + 10)
  else if 'A' ≤ c ∧ c ≤ 'F' then some (c.toNat - 'A'.toNat + 10)
  else none

/-- Accumulating loop of Python `int(s, 16)` over the digit characters:
fails (`ValueError`) on any non-hex-digit character. -/
def hexDigitsVal (acc : Nat) : List Char → Except Unit Nat
  | [] => .ok acc
  | c :: rest =>
    match hexVal? c with
    | some v => hexDigitsVal (16 * acc + v) rest
    | none => .error ()

/-- Python `int(s, 16)` on a plain hex numeral: an optional `0x`/`0X`
prefix followed by at least one hex digit.  (Surrounding whitespace, a
sign and `_` digit separators, which `int` also accepts, are outside the
forms the server produces and are not modelled.) -/
def pyInt16 (s : List Char) : Except Unit Nat :=
  match s with
  | '0' :: 'x' :: rest => if rest.isEmpty then .error () else hexDigitsVal 0 rest
  | '0' :: 'X' :: rest => if rest.isEmpty then .error () else hexDigitsVal 0 rest
  | [] => .error ()
  | _ => hexDigitsVal 0 s

/-- Value of one decimal digit character, if it is one. -/
def decVal? (c : Char) : Option Nat :=
  if '0' ≤ c ∧ c ≤ '9' then some (c.toNat - '0'.toNat) else none

def decDigitsVal (acc : Nat) : List Char → Except Unit Nat
  | [] => .ok acc
  | c :: rest =>
    match decVal? c with
    | some v => decDigitsVal (10 * acc + v) rest
    | none => .error ()

/-- Python `int(s)` on a plain decimal numeral (same caveats as
`pyInt16`). -/
def pyInt10 (s : List Char) : Except Unit Nat :=
  match s with
  | [] => .error ()
  | _ => decDigitsVal 0 s

/-- Python `bytes.fromhex` on a string with no spaces: pairs of hex digits;
an odd trailing digit or a non-hex character raises `ValueError`. -/
def pyFromHex : List Char → Except Unit (List Nat)
  | [] => .ok []
  | c1 :: c2 :: rest =>
    match hexVal? c1, hexVal? c2 with
    | some h, some l =>
      match pyFromHex rest with
      | .ok t => .ok ((16 * h + l) :: t)
      | .error e => .error e
    | _, _ => .error ()
  | [_] => .error ()

/-- The mathematical value of a list of hex digit characters (most
significant first): the specification-side meaning of a hex numeral,
stated independently of the parsers above. -/
def hexToNat (s : List Char) : Nat :=
  s.foldl (fun a c => 16 * a + ((hexVal? c).getD 0)) 0

/-- Render one byte (< 256) as two lowercase hex digit characters. -/
def hexCharOf (n : Nat) : Char :=
  if n < 10 then Char.ofNat ('0'.toNat + n) else Char.ofNat ('a'.toNat + n - 10)

/-- Render a byte string as a compact hex string (two digits per byte). -/
def bytesToHexChars (l : List Nat) : List Char :=
  match l with
  | [] => []
  | b :: rest => hexCharOf (b / 16) :: hexCharOf (b % 16) :: bytesToHexChars rest

/-! ### src/drivers/NetworkCAN_Driver.py -/

namespace NetworkCAN

/-- `NetworkCAN_Driver.CANMessage` (lines 33-50); `__post_init__` replaces
a zero `dlc` by `len(data)` and leaves any other value untouched. -/
structure CANMessage where
  id : Nat
  data : List Nat
  timestamp : Int
  is_extended : Bool
  is_remote : Bool
  dlc : Nat
  deriving DecidableEq, Repr

/-- Constructing a `CANMessage`, including the `__post_init__` body. -/
def mkCANMessage (id : Nat) (data : List Nat) (timestamp : Int)
    (is_extended is_remote : Bool) (dlc : Nat) : CANMessage :=
  { id := id, data := data, timestamp := timestamp, is_extended := is_extended,
    is_remote := is_remote, dlc := if dlc = 0 then data.length else dlc }

/-- One JSON message dict as returned by `GET /api/messages`, restricted
to the keys `_receive_loop` reads.  `none` stands for an absent key. -/
structure ServerMsg where
  timestamp : Int
  idField : IdVal
  dataField : DataVal
  dataHexField : Option (List Char)
  isExtendedField : Option Bool
  isRemoteField : Option Bool
  dlcField : Option Nat
  deriving DecidableEq, Repr

/-- `msg_id = msg_data.get('id', 0)` followed by the (always-evaluated)
default argument `msg_id > 0x7FF` of
`msg_data.get('is_extended', msg_id > 0x7FF)` on line 435: for an integer
id this yields the id; for a string id the comparison `str > int` raises
`TypeError`, aborting the poll iteration — the driver never converts
string ids. -/
def extractId : IdVal → Except Unit Nat
  | .int n => .ok n
  | .str _ => .error ()

/-- Payload extraction of `_receive_loop` (lines 424-433): a string under
`data` is hex-decoded after removing spaces, a list is converted with
`bytes(...)` (which raises for values ≥ 256); if the result is empty and a
non-empty `data_hex` is present, that is hex-decoded instead. -/
def parseData (data : DataVal) (dataHex : Option (List Char)) :
    Except Unit (List Nat) :=
  let raw : Except Unit (List Nat) :=
    match data with
    | .str s => pyFromHex (s.filter (fun c => c ≠ ' '))
    | .list l => if l.all (fun b => b < 256) then .ok l else .error ()
  match raw with
  | .error e => .error e
  | .ok r =>
    if r.isEmpty then
      match dataHex with
      | some h =>
        if h.isEmpty then .ok r else pyFromHex (h.filter (fun c => c ≠ ' '))
      | none => .ok r
    else .ok r

/-- Building the `CANMessage` that `_receive_loop` hands to the receive
callback for one accepted server message (lines 420-454).  An error is an
exception escaping to the surrounding `try`, which aborts the whole poll
iteration. -/
def buildCANMessage (m : ServerMsg) : Except Unit CANMessage :=
  match extractId m.idField with
  | .error e => .error e
  | .ok msgId =>
    match parseData m.dataField m.dataHexField with
    | .error e => .error e
    | .ok rawData =>
      .ok (mkCANMessage msgId rawData m.timestamp
        (m.isExtendedField.getD (decide (msgId > 0x7FF)))
        (m.isRemoteField.getD false)
        (m.dlcField.getD rawData.length))

/-- `sorted(messages, key=lambda m: m.get('timestamp', 0))` on line 400. -/
def sortByTimestamp (batch : List ServerMsg) : List ServerMsg :=
  batch.mergeSort (fun a b => a.timestamp ≤ b.timestamp)

/-- The per-message body of `_receive_loop` over one (already sorted)
batch, threading the `_last_timestamp` high-water mark: a message with
timestamp ≤ mark is skipped; otherwise the mark advances to its timestamp
and the message is parsed and delivered.  A parse exception aborts the
rest of the iteration (the mark keeps the failed message's timestamp). -/
def pollIteration (mark : Int) : List ServerMsg → Int × List CANMessage
  | [] => (mark, [])
  | m :: rest =>
    if m.timestamp ≤ mark then pollIteration mark rest
    else
      match buildCANMessage m with
      | .error _ => (m.timestamp, [])
      | .ok f =>
        let r := pollIteration m.timestamp rest
        (r.1, f :: r.2)

/-- `_receive_loop` (lines 369-490) over a sequence of polled batches:
each batch is sorted by timestamp, deduplicated against the high-water
mark, parsed and delivered in order. -/
def receive_loop (mark : Int) : List (List ServerMsg) → List CANMessage
  | [] => []
  | batch :: batches =>
    let r := pollIteration mark (sortByTimestamp batch)
    r.2 ++ receive_loop r.1 batches

/-- `start_receive_thread` (lines 492-526) clears the server-side buffer
once and sets `_last_timestamp = 0.0` before starting `_receive_loop`:
the frames delivered to the callback over the whole session are those of
`receive_loop` started with mark 0. -/
def receiveDelivered (batches : List (List ServerMsg)) : List CANMessage :=
  receive_loop 0 batches

end NetworkCAN

/-! ### src/drivers/Bluetooth_Driver.py -/

namespace Bluetooth

/-- `Bluetooth_Driver.CANMessage` (lines 36-46). -/
structure CANMessage where
  timestamp : Int
  arbitration_id : Nat
  is_extended_id : Bool
  is_remote_frame : Bool
  dlc : Nat
  data : List Nat
  deriving DecidableEq, Repr

/-- One message dict of a `{event: "messages"}` push, restricted to the
keys `_parse_message` reads.  `none` stands for an absent key. -/
structure ServerMsg where
  idField : IdVal
  dataHexField : Option (List Char)
  dataField : Option DataVal
  timestampField : Option Int
  isExtendedField : Option Bool
  isRemoteField : Option Bool
  deriving DecidableEq, Repr

/-- Lines 333-335: `int(arb_id, 16)` when the string starts with `"0x"`
(lowercase, exactly), otherwise `int(arb_id)`; an integer passes through. -/
def parseId : IdVal → Except Unit Nat
  | .int n => .ok n
  | .str s => if s.take 2 = ['0', 'x'] then pyInt16 s else pyInt10 s

/-- Lines 338-345: `msg_data.get("data_hex", "") or msg_data.get("data", "")`
(a present but empty `data_hex` is falsy and falls through), then a string
is hex-decoded after removing spaces (empty string gives `b''`), a list is
converted with `bytes(...)`. -/
def parseData (dataHex : Option (List Char)) (data : Option DataVal) :
    Except Unit (List Nat) :=
  let v : DataVal :=
    match dataHex with
    | some s => if s.isEmpty then data.getD (.str []) else .str s
    | none => data.getD (.str [])
  match v with
  | .str s =>
    let s2 := s.filter (fun c => c ≠ ' ')
    if s2.isEmpty then .ok [] else pyFromHex s2
  | .list l => if l.all (fun b => b < 256) then .ok l else .error ()

/-- `BluetoothCANDriver._parse_message` (lines 329-367).  The whole body is
wrapped in `try/except` returning `None`, so any parse exception becomes
`none` rather than propagating.  `now` stands for `time.time()`, the
default timestamp. -/
def parse_message (m : ServerMsg) (now : Int) : Option CANMessage :=
  match parseId m.idField with
  | .error _ => none
  | .ok arbId =>
    match parseData m.dataHexField m.dataField with
    | .error _ => none
    | .ok data =>
      some { timestamp := m.timestampField.getD now,
             arbitration_id := arbId,
             is_extended_id := m.isExtendedField.getD (decide (arbId > 0x7FF)),
             is_remote_frame := m.isRemoteField.getD false,
             dlc := data.length,
             data := data }

end Bluetooth

/-! ### src/GUI_Master.py -/

namespace GUI

/-- The fields of a received driver message that `_on_message_received`
reads. -/
structure RxMsg where
  id : Nat
  data : List Nat
  is_extended : Bool
  is_remote : Bool
  dlc : Nat
  deriving DecidableEq, Repr

/-- One row dict of `self.message_data` (lines 848-863), restricted to the
fields relevant to keying and aggregation.  `last_time` (a datetime) is
modelled as a millisecond tick `lastTime`, so `period_ms` is the tick
difference; the purely cosmetic fields (`name`, `decoded_info`,
`last_timestamp` string, `row_tag`) are independent of the keying and are
omitted. -/
structure Row where
  msgType : String
  dlc : Nat
  data : List Nat
  count : Nat
  lastTime : Nat
  periodMs : Nat
  deriving DecidableEq, Repr

/-- The update branch of `_on_message_received` for an already-known key
(lines 834-845). -/
def updateRow (r : Row) (m : RxMsg) (now : Nat) : Row :=
  { r with
      count := r.count + 1
      periodMs := now - r.lastTime
      lastTime := now
      data := m.data
      dlc := m.dlc }

/-- The insertion branch of `_on_message_received` for a new key
(lines 846-863). -/
def freshRow (m : RxMsg) (now : Nat) : Row :=
  { msgType :=
      (if m.is_extended then "EXT" else "STD") ++
      (if m.is_remote then "-R" else ""),
    dlc := m.dlc, data := m.data, count := 1, lastTime := now, periodMs := 0 }

/-- `PCANExplorerGUI._on_message_received` (lines 818-863) acting on the
`message_data` dict, modelled as an insertion-ordered association list:
the dict is indexed by `msg.id` alone (`if msg.id in self.message_data`). -/
def on_message_received (table : List (Nat × Row)) (m : RxMsg) (now : Nat) :
    List (Nat × Row) :=
  match table.lookup m.id with
  | some _ =>
    table.map (fun kv => if kv.1 = m.id then (kv.1, updateRow kv.2 m now) else kv)
  | none => table ++ [(m.id, freshRow m now)]

/-- The DBC lookup id of `_decode_message` / `_get_message_name`
(lines 751 and 813): `can_id | 0x80000000` for extended ids. -/
def decodeLookupId (can_id : Nat) (is_extended : Bool) : Nat :=
  if is_extended then can_id ||| 0x80000000 else can_id

end GUI

/-! ### src/webserver/backend/api.py -/

namespace WebAPI

/-- The DBC lookup id of `CANBackend.decode_message` (lines 488-496):
`can_id & 0x1FFFFFFF` for extended ids, `can_id` unchanged otherwise. -/
def decodeLookupId (can_id : Nat) (is_extended : Bool) : Nat :=
  if is_extended then can_id &&& 0x1FFFFFFF else can_id

/-- A finite Python float value, kept abstract: the transmit-list code
never computes with signal values, and `json.dump`/`json.load` round-trip
a finite float exactly (`repr` round-trips).  Distinct values are distinct
tokens. -/
structure PyFloat where
  bits : Nat
  deriving DecidableEq, Repr

/-- A signal value of a transmit-list item:
`Union[int, float, str]` in the `TransmitListItem` pydantic model. -/
inductive SigVal where
  | sint (n : Int)
  | sfloat (x : PyFloat)
  | sstr (s : String)
  deriving DecidableEq, Repr

/-- `TransmitListItem` (api.py lines 177-185). -/
structure TransmitListItem where
  id : String
  can_id : Int
  data : List Int
  is_extended : Bool
  message_name : Option String
  signals : Option (List (String × SigVal))
  description : Option String
  deriving DecidableEq, Repr

/-- A JSON value, the common currency of `item.dict()`, `json.dump` and
`json.load`: ints and floats are distinct JSON number shapes (`json`
preserves the distinction, and finite floats round-trip exactly through
their decimal repr). -/
inductive JVal where
  | null
  | bool (b : Bool)
  | int (n : Int)
  | float (x : PyFloat)
  | str (s : String)
  | arr (xs : List JVal)
  | obj (kvs : List (String × JVal))

/-- `item.dict()` for one `TransmitListItem`: every declared field is
emitted, optional fields that are `None` appear as JSON `null`. -/
def encodeItem (it : TransmitListItem) : JVal :=
  .obj
    [("id", .str it.id),
     ("can_id", .int it.can_id),
     ("data", .arr (it.data.map (fun n => .int n))),
     ("is_extended", .bool it.is_extended),
     ("message_name",
       match it.message_name with
       | none => .null
       | some s => .str s),
     ("signals",
       match it.signals with
       | none => .null
       | some kvs =>
         .obj (kvs.map (fun p =>
           (p.1,
            match p.2 with
            | .sint n => JVal.int n
            | .sfloat x => JVal.float x
            | .sstr s => JVal.str s))))
     ,
     ("description",
       match it.description with
       | none => .null
       | some s => .str s)]

/-- Validation of one signal value (`Union[int, float, str]`). -/
def decodeSigVal : JVal → Except Unit SigVal
  | .int n => .ok (.sint n)
  | .float x => .ok (.sfloat x)
  | .str s => .ok (.sstr s)
  | _ => .error ()

/-- Validation of the `data: List[int]` field. -/
def decodeIntList : List JVal → Except Unit (List Int)
  | [] => .ok []
  | .int n :: rest =>
    match decodeIntList rest with
    | .ok t => .ok (n :: t)
    | .error e => .error e
  | _ :: _ => .error ()

/-- Validation of the `signals` mapping values. -/
def decodeSignals : List (String × JVal) → Except Unit (List (String × SigVal))
  | [] => .ok []
  | (k, v) :: rest =>
    match decodeSigVal v with
    | .error e => .error e
    | .ok sv =>
      match decodeSignals rest with
      | .ok t => .ok ((k, sv) :: t)
      | .error e => .error e

/-- `TransmitListItem(**item)`: pydantic validation of one JSON object
against the model; a missing or `null` optional field becomes `None`, a
wrongly-typed field raises `ValidationError`. -/
def decodeItem (j : JVal) : Except Unit TransmitListItem :=
  match j with
  | .obj kvs =>
    match kvs.lookup "id", kvs.lookup "can_id", kvs.lookup "data" with
    | some (.str idv), some (.int cid), some (.arr dataArr) =>
      match decodeIntList dataArr with
      | .error e => .error e
      | .ok datav =>
        let extv : Except Unit Bool :=
          match kvs.lookup "is_extended" with
          | none => .ok false
          | some (.bool b) => .ok b
          | some _ => .error ()
        let namev : Except Unit (Option String) :=
          match kvs.lookup "message_name" with
          | none => .ok none
          | some .null => .ok none
          | some (.str s) => .ok (some s)
          | some _ => .error ()
        let sigsv : Except Unit (Option (List (String × SigVal))) :=
          match kvs.lookup "signals" with
          | none => .ok none
          | some .null => .ok none
          | some (.obj skvs) =>
            match decodeSignals skvs with
            | .ok l => .ok (some l)
            | .error e => .error e
          | some _ => .error ()
        let descv : Except Unit (Option String) :=
          match kvs.lookup "description" with
          | none => .ok none
          | some .null => .ok none
          | some (.str s) => .ok (some s)
          | some _ => .error ()
        match extv, namev, sigsv, descv with
        | .ok e, .ok n, .ok sg, .ok d =>
          .ok { id := idv, can_id := cid, data := datav, is_extended := e,
                message_name := n, signals := sg, description := d }
        | _, _, _, _ => .error ()
    | _, _, _ => .error ()
  | _ => .error ()

/-- Decoding of the loaded item array (`[TransmitListItem(**item) for item
in data.get("items", [])]`). -/
def decodeItems : List JVal → Except Unit (List TransmitListItem)
  | [] => .ok []
  | j :: rest =>
    match decodeItem j with
    | .error e => .error e
    | .ok it =>
      match decodeItems rest with
      | .ok t => .ok (it :: t)
      | .error e => .error e

/-- `Path(dbc_file).stem`: the final path component minus its last
extension (a leading dot alone is not an extension). -/
def pathStem (s : String) : String :=
  let base := (s.data.reverse.takeWhile (fun c => c ≠ '/' ∧ c ≠ '\\')).reverse
  match base.reverse.dropWhile (fun c => c ≠ '.') with
  | [] => ⟨base⟩
  | [_] => ⟨base⟩
  | _ :: prefixRev => ⟨prefixRev.reverse⟩

/-- The `transmit_lists` directory, as a filename-keyed document store. -/
def storePut (files : List (String × JVal)) (k : String) (v : JVal) :
    List (String × JVal) :=
  match files.lookup k with
  | some _ => files.map (fun kv => if kv.1 = k then (kv.1, v) else kv)
  | none => files ++ [(k, v)]

/-- `save_transmit_list` (api.py lines 895-920): write
`{dbc_file, items}` to `<stem>_transmit_list.json`. -/
def save_transmit_list (files : List (String × JVal)) (dbc_file : String)
    (items : List TransmitListItem) : List (String × JVal) :=
  storePut files (pathStem dbc_file ++ "_transmit_list.json")
    (.obj [("dbc_file", .str dbc_file), ("items", .arr (items.map encodeItem))])

/-- `load_transmit_list` (api.py lines 923-951): a missing file yields an
empty item list; otherwise the stored `items` array is validated item by
item (a validation failure is the endpoint's HTTP 500). -/
def load_transmit_list (files : List (String × JVal)) (dbc_file : String) :
    Except Unit (List TransmitListItem) :=
  match files.lookup (pathStem dbc_file ++ "_transmit_list.json") with
  | none => .ok []
  | some (.obj kvs) =>
    match kvs.lookup "items" with
    | some (.arr items) => decodeItems items
    | some _ => .error ()
    | none => .ok []
  | some _ => .error ()

end WebAPI

deriving instance DecidableEq for Except

/-! ## Theorems -/

/-! ### Bootloader response waiting (claims C2, C6, C10) -/

/-- A frame that every wait loop passes over: wrong arbitration id, or the
canonical heartbeat. -/
def Skippable (x : CanMsg) : Prop :=
  x.id ≠ CAN_BOOTLOADER_ID ∨ isHeartbeat x.data = true

instance (x : CanMsg) : Decidable (Skippable x) := by
  unfold Skippable; infer_instance

theorem wait_response_skip (pre ms : List CanMsg)
    (h : ∀ x ∈ pre, Skippable x) :
    wait_response (pre ++ ms) = wait_response ms := by
  induction pre with
  | nil => rfl
  | cons x rest ih =>
    have hx := h x (by simp)
    have hrest : ∀ y ∈ rest, Skippable y := fun y hy => h y (by simp [hy])
    rcases hx with hid | hhb
    · simpa [wait_response, hid] using ih hrest
    · by_cases hid : x.id = CAN_BOOTLOADER_ID
      · simpa [wait_response, hid, hhb] using ih hrest
      · simpa [wait_response, hid] using ih hrest

theorem set_address_wait_skip (pre ms : List CanMsg)
    (h : ∀ x ∈ pre, Skippable x) :
    set_address_wait (pre ++ ms) = set_address_wait ms := by
  induction pre with
  | nil => rfl
  | cons x rest ih =>
    have hx := h x (by simp)
    have hrest : ∀ y ∈ rest, Skippable y := fun y hy => h y (by simp [hy])
    rcases hx with hid | hhb
    · simpa [set_address_wait, hid] using ih hrest
    · by_cases hid : x.id = CAN_BOOTLOADER_ID
      · simpa [set_address_wait, hid, hhb] using ih hrest
      · simpa [set_address_wait, hid] using ih hrest

theorem wait_response_return (m : CanMsg) (post : List CanMsg)
    (hid : m.id = CAN_BOOTLOADER_ID) (hhb : isHeartbeat m.data = false)
    (hne : m.data ≠ []) :
    wait_response (m :: post) = .ok (some m) := by
  match hd : m.data with
  | [] => exact absurd hd hne
  | b :: rest =>
    rw [hd] at hhb
    simp [wait_response, hid, hhb, hd]

theorem set_address_wait_return (m : CanMsg) (post : List CanMsg)
    (hid : m.id = CAN_BOOTLOADER_ID) (hhb : isHeartbeat m.data = false)
    (hne : m.data ≠ []) :
    set_address_wait (m :: post) = .ok (m.data.head? == some RESP_ACK) := by
  match hd : m.data with
  | [] => exact absurd hd hne
  | b :: rest =>
    rw [hd] at hhb
    simp [set_address_wait, hid, hhb, hd]

/-- Claim C2, corrected.  While waiting for a command response — both in
`_wait_response` and in the `set_address` wait loop — every target frame
whose first three payload bytes are exactly `[0x14, 0x01, 0x00]` is
discarded and the engine keeps waiting until the timeout; any other frame
from the target **with a non-empty payload** is returned as the normal
response (for `set_address`, as the test `data[0] == RESP_ACK`).  The
amendment is the non-emptiness proviso: a target frame with an empty
payload makes both loops raise `IndexError` instead of returning it (see
`c2_counterexample`). -/
theorem c2_heartbeat_filter_amended :
    (∀ pre m post,
      (∀ x ∈ pre, Skippable x) →
      m.id = CAN_BOOTLOADER_ID → isHeartbeat m.data = false → m.data ≠ [] →
      wait_response (pre ++ m :: post) = .ok (some m) ∧
      set_address_wait (pre ++ m :: post) = .ok (m.data.head? == some RESP_ACK)) ∧
    (∀ ms, (∀ x ∈ ms, Skippable x) →
      wait_response ms = .ok none ∧ set_address_wait ms = .ok false) := by
  constructor
  · intro pre m post hpre hid hhb hne
    constructor
    · rw [wait_response_skip pre _ hpre, wait_response_return m post hid hhb hne]
    · rw [set_address_wait_skip pre _ hpre,
        set_address_wait_return m post hid hhb hne]
  · intro ms hms
    constructor
    · have := wait_response_skip ms [] hms
      simpa using this
    · have := set_address_wait_skip ms [] hms
      simpa using this

/-- Concrete instance of `c2_heartbeat_filter_amended`: one heartbeat
followed by an ACK; the heartbeat is skipped, the ACK is returned. -/
theorem c2_witness :
    wait_response
        [⟨CAN_BOOTLOADER_ID, [0x14, 0x01, 0x00, 0, 0, 0, 0, 0]⟩,
         ⟨CAN_BOOTLOADER_ID, [0x10, 0, 0, 0, 0, 0, 0, 0]⟩] =
      .ok (some ⟨CAN_BOOTLOADER_ID, [0x10, 0, 0, 0, 0, 0, 0, 0]⟩) ∧
    set_address_wait
        [⟨CAN_BOOTLOADER_ID, [0x14, 0x01, 0x00, 0, 0, 0, 0, 0]⟩,
         ⟨CAN_BOOTLOADER_ID, [0x10, 0, 0, 0, 0, 0, 0, 0]⟩] = .ok true := by
  have h := c2_heartbeat_filter_amended.1
    [⟨CAN_BOOTLOADER_ID, [0x14, 0x01, 0x00, 0, 0, 0, 0, 0]⟩]
    ⟨CAN_BOOTLOADER_ID, [0x10, 0, 0, 0, 0, 0, 0, 0]⟩ []
    (by decide) (by decide) (by decide) (by decide)
  exact ⟨by simpa using h.1, by simpa [RESP_ACK] using h.2⟩

/-- Claim C2 as literally stated is false: a frame from the target whose
payload is empty (a DLC-0 frame) is neither discarded-and-waited-past nor
returned — `_wait_response` raises `IndexError` while formatting the debug
message `msg.data[0]` on line 173 (and `set_address` likewise on
line 309). -/
theorem c2_counterexample :
    wait_response [⟨CAN_BOOTLOADER_ID, []⟩] = .error () ∧
    wait_response [⟨CAN_BOOTLOADER_ID, []⟩] ≠ .ok (some ⟨CAN_BOOTLOADER_ID, []⟩) ∧
    wait_response [⟨CAN_BOOTLOADER_ID, []⟩] ≠ .ok none ∧
    set_address_wait [⟨CAN_BOOTLOADER_ID, []⟩] = .error () := by
  refine ⟨rfl, ?_, ?_, rfl⟩ <;> decide

theorem wait_response_cases (ms : List CanMsg)
    (h : ∀ x ∈ ms, x.id = CAN_BOOTLOADER_ID → x.data ≠ []) :
    wait_response ms = .ok none ∨
    ∃ m, wait_response ms = .ok (some m) ∧ m.id = CAN_BOOTLOADER_ID ∧
      m.data ≠ [] := by
  induction ms with
  | nil => left; rfl
  | cons x rest ih =>
    have hrest : ∀ y ∈ rest, y.id = CAN_BOOTLOADER_ID → y.data ≠ [] :=
      fun y hy => h y (by simp [hy])
    by_cases hid : x.id = CAN_BOOTLOADER_ID
    · by_cases hhb : isHeartbeat x.data = true
      · rcases ih hrest with h1 | ⟨m, h1, h2, h3⟩
        · left; simpa [wait_response, hid, hhb] using h1
        · right; exact ⟨m, by simpa [wait_response, hid, hhb] using h1, h2, h3⟩
      · have hne := h x (by simp) hid
        right
        exact ⟨x, wait_response_return x rest hid (by simpa using hhb) hne,
          hid, hne⟩
    · rcases ih hrest with h1 | ⟨m, h1, h2, h3⟩
      · left; simpa [wait_response, hid] using h1
      · right; exact ⟨m, by simpa [wait_response, hid] using h1, h2, h3⟩

/-- Claim C6, corrected.  Provided every frame the target sends during the
0.5 s wait carries at least one payload byte, the jump operation is total
and: it returns success when an ACK (first byte 0x10) arrives, returns
success when no response arrives at all, and returns failure exactly when
the first response is a NACK (first byte 0x11).  The amendment is the
non-empty-payload proviso: an empty-payload target frame makes the
operation raise `IndexError` instead of returning either outcome (see
`c6_counterexample`). -/
theorem c6_jump_semantics_amended (frames : List CanMsg)
    (h : ∀ x ∈ frames, x.id = CAN_BOOTLOADER_ID → x.data ≠ []) :
    (jump_to_application frames = .ok true ∨
      jump_to_application frames = .ok false) ∧
    (jump_to_application frames = .ok false ↔
      ∃ m, wait_response frames = .ok (some m) ∧
        m.data.head? = some RESP_NACK) ∧
    (wait_response frames = .ok none → jump_to_application frames = .ok true) ∧
    (∀ m, wait_response frames = .ok (some m) →
      m.data.head? = some RESP_ACK → jump_to_application frames = .ok true) := by
  rcases wait_response_cases frames h with hw | ⟨m, hw, hmid, hmne⟩
  · refine ⟨Or.inl (by simp [jump_to_application, hw]), ?_, ?_, ?_⟩
    · constructor
      · intro hj; simp [jump_to_application, hw] at hj
      · rintro ⟨m, hm, -⟩; rw [hw] at hm; simp at hm
    · intro _; simp [jump_to_application, hw]
    · intro m hm; rw [hw] at hm; simp at hm
  · obtain ⟨b, bs, hd⟩ := List.exists_cons_of_ne_nil hmne
    have hj : jump_to_application frames =
        (if b = RESP_ACK then .ok true
         else if b = RESP_NACK then .ok false else .ok true) := by
      simp [jump_to_application, hw, hd]
    have hhead : m.data.head? = some b := by rw [hd]; rfl
    by_cases hb : b = RESP_NACK
    · rw [hb] at hj hhead
      have hj' : jump_to_application frames = .ok false := by
        simpa [RESP_ACK, RESP_NACK] using hj
      refine ⟨Or.inr hj', ?_, ?_, ?_⟩
      · exact ⟨fun _ => ⟨m, hw, hhead⟩, fun _ => hj'⟩
      · intro hnone; rw [hw] at hnone; simp at hnone
      · intro m' hm' hack
        rw [hw] at hm'
        simp only [Except.ok.injEq, Option.some.injEq] at hm'
        rw [← hm'] at hack
        rw [hhead] at hack
        simp [RESP_ACK, RESP_NACK] at hack
    · have hj' : jump_to_application frames = .ok true := by
        by_cases hba : b = RESP_ACK
        · simpa [hba] using hj
        · simpa [hba, hb] using hj
      refine ⟨Or.inl hj', ?_, ?_, ?_⟩
      · constructor
        · intro hfalse; rw [hj'] at hfalse; simp at hfalse
        · rintro ⟨m', hm', hnack⟩
          rw [hw] at hm'
          simp only [Except.ok.injEq, Option.some.injEq] at hm'
          rw [← hm'] at hnack
          rw [hhead] at hnack
          simp only [Option.some.injEq] at hnack
          exact absurd hnack hb
      · intro _; exact hj'
      · intro _ _ _; exact hj'

/-- Concrete instance of `c6_jump_semantics_amended`: a NACK with error
code 0x06 ("no valid application") within the wait makes the jump fail. -/
theorem c6_witness :
    jump_to_application [⟨CAN_BOOTLOADER_ID, [0x11, 0x06, 0, 0, 0, 0, 0, 0]⟩] =
      .ok false :=
  ((c6_jump_semantics_amended
      [⟨CAN_BOOTLOADER_ID, [0x11, 0x06, 0, 0, 0, 0, 0, 0]⟩]
      (by decide)).2.1).mpr
    ⟨⟨CAN_BOOTLOADER_ID, [0x11, 0x06, 0, 0, 0, 0, 0, 0]⟩, by decide, by decide⟩

/-- Claim C6 as literally stated is false on one input: when the target
answers with a DLC-0 frame within the 500 ms window, `jump_to_application`
neither returns success nor returns failure — the `IndexError` from
`_wait_response`'s debug formatting propagates out of the call. -/
theorem c6_counterexample :
    jump_to_application [⟨CAN_BOOTLOADER_ID, []⟩] ≠ .ok true ∧
    jump_to_application [⟨CAN_BOOTLOADER_ID, []⟩] ≠ .ok false ∧
    jump_to_application [⟨CAN_BOOTLOADER_ID, []⟩] = .error () := by
  refine ⟨by decide, by decide, rfl⟩

theorem wait_response_id (ms : List CanMsg) (m : CanMsg)
    (hw : wait_response ms = .ok (some m)) : m.id = CAN_BOOTLOADER_ID := by
  induction ms with
  | nil => simp [wait_response] at hw
  | cons x rest ih =>
    by_cases hid : x.id = CAN_BOOTLOADER_ID
    · by_cases hhb : isHeartbeat x.data = true
      · rw [show wait_response (x :: rest) = wait_response rest by
          simp [wait_response, hid, hhb]] at hw
        exact ih hw
      · cases hd : x.data with
        | nil => simp [wait_response, isHeartbeat, hid, hd] at hw
        | cons b bs =>
          rw [hd] at hhb
          rw [show wait_response (x :: rest) = .ok (some x) by
            simp [wait_response, hid, hhb, hd]] at hw
          simp only [Except.ok.injEq, Option.some.injEq] at hw
          rw [← hw]; exact hid
    · rw [show wait_response (x :: rest) = wait_response rest by
        simp [wait_response, hid]] at hw
      exact ih hw

theorem reset_wait_ready_id (ms : List CanMsg) (m : CanMsg)
    (hw : reset_wait_ready ms = some m) :
    m.id = CAN_BOOTLOADER_ID ∧ m.data.head? = some RESP_READY := by
  induction ms with
  | nil => simp [reset_wait_ready] at hw
  | cons x rest ih =>
    by_cases hid : x.id = CAN_BOOTLOADER_ID
    · cases hd : x.data with
      | nil =>
        rw [show reset_wait_ready (x :: rest) = reset_wait_ready rest by
          simp [reset_wait_ready, hid, hd]] at hw
        exact ih hw
      | cons b bs =>
        by_cases hb : b = RESP_READY
        · rw [show reset_wait_ready (x :: rest) = some x by
            simp [reset_wait_ready, hid, hd, hb]] at hw
          simp only [Option.some.injEq] at hw
          subst hw
          exact ⟨hid, by rw [hd, hb]; rfl⟩
        · rw [show reset_wait_ready (x :: rest) = reset_wait_ready rest by
            simp [reset_wait_ready, hid, hd, hb]] at hw
          exact ih hw
    · rw [show reset_wait_ready (x :: rest) = reset_wait_ready rest by
        simp [reset_wait_ready, hid]] at hw
      exact ih hw

/-- Claim C10, confirmed.  Every frame returned by the bootloader engine's
response wait has arbitration id exactly `0x18000700`
(`CAN_BOOTLOADER_ID`); the frame accepted by the 3-second post-reset READY
wait likewise has that id (and first byte `RESP_READY`); and a frame on
any other id is silently skipped by all three wait loops — it is never
interpreted as a response. -/
theorem c10_wait_filters_bootloader_id :
    (∀ ms m, wait_response ms = .ok (some m) → m.id = CAN_BOOTLOADER_ID) ∧
    (∀ ms m, reset_wait_ready ms = some m →
      m.id = CAN_BOOTLOADER_ID ∧ m.data.head? = some RESP_READY) ∧
    (∀ x ms, x.id ≠ CAN_BOOTLOADER_ID →
      wait_response (x :: ms) = wait_response ms ∧
      set_address_wait (x :: ms) = set_address_wait ms ∧
      reset_wait_ready (x :: ms) = reset_wait_ready ms) := by
  refine ⟨wait_response_id, reset_wait_ready_id, ?_⟩
  intro x ms hid
  exact ⟨by simp [wait_response, hid], by simp [set_address_wait, hid],
    by simp [reset_wait_ready, hid]⟩

/-- Concrete instance of `c10_wait_filters_bootloader_id`: a READY boot
handshake frame accepted by the reset wait is on the bootloader id, and a
frame on the per-module reset id `0x08F00F02` is skipped by the response
wait. -/
theorem c10_witness :
    ((⟨CAN_BOOTLOADER_ID, [0x14, 0x07, 0, 0, 0, 0, 0, 0]⟩ : CanMsg).id =
        CAN_BOOTLOADER_ID ∧
      (⟨CAN_BOOTLOADER_ID, [0x14, 0x07, 0, 0, 0, 0, 0, 0]⟩ :
        CanMsg).data.head? = some RESP_READY) ∧
    wait_response [⟨0x08F00F02, [0x10, 0, 0, 0, 0, 0, 0, 0]⟩] =
      wait_response [] := by
  constructor
  · exact c10_wait_filters_bootloader_id.2.1
      [⟨CAN_BOOTLOADER_ID, [0x14, 0x07, 0, 0, 0, 0, 0, 0]⟩] _ (by decide)
  · exact (c10_wait_filters_bootloader_id.2.2
      ⟨0x08F00F02, [0x10, 0, 0, 0, 0, 0, 0, 0]⟩ [] (by decide)).1

/-! ### Firmware image preparation and flashing (claims C4, C5) -/

theorem pad_eq (data : List Nat) :
    pad_to_4byte_boundary data =
      data ++ List.replicate ((4 - data.length % 4) % 4) 0xFF := by
  unfold pad_to_4byte_boundary
  by_cases h : (4 - data.length % 4) % 4 > 0
  · simp [h]
  · have h0 : (4 - data.length % 4) % 4 = 0 := by omega
    simp [h0]

theorem pad_length (data : List Nat) :
    (pad_to_4byte_boundary data).length =
      data.length + (4 - data.length % 4) % 4 := by
  rw [pad_eq]; simp

/-- Claim C5, confirmed.  `pad_to_4byte_boundary` appends `0xFF` bytes to
the input — and changes nothing else — reaching the smallest multiple of 4
that is ≥ the input length; and `flash_firmware` truncates an oversized
image to exactly `APP_MAX_SIZE = 0x34000` bytes, emits a progress event
announcing the truncation before any write-stage activity (it is the
second event overall), and continues flashing to success on a nominal
target. -/
theorem c5_padding_and_truncation :
    (∀ data : List Nat,
      pad_to_4byte_boundary data =
        data ++ List.replicate ((4 - data.length % 4) % 4) 0xFF ∧
      (pad_to_4byte_boundary data).length % 4 = 0 ∧
      data.length ≤ (pad_to_4byte_boundary data).length ∧
      (∀ m, m % 4 = 0 → data.length ≤ m →
        (pad_to_4byte_boundary data).length ≤ m)) ∧
    (∀ (raw : List Nat) (fname : String), APP_MAX_SIZE < raw.length →
      (flashPrepare raw fname).1 = raw.take APP_MAX_SIZE ∧
      (flashPrepare raw fname).1.length = APP_MAX_SIZE ∧
      (∃ rest,
        (flash_firmware raw fname idealTarget).events =
          { stage := "write", progress := 0,
            message := "Loading " ++ fname ++ "..." } ::
          { stage := "write", progress := 0,
            message := "Truncating to " ++ toString APP_MAX_SIZE ++ " bytes" } ::
          rest ∧
        ({ stage := "write", progress := 0,
           message := "Writing firmware..." } : FlashProgress) ∈ rest) ∧
      (flash_firmware raw fname idealTarget).success = true) := by
  constructor
  · intro data
    refine ⟨pad_eq data, ?_, ?_, ?_⟩
    · rw [pad_length]; omega
    · rw [pad_length]; omega
    · intro m hm hlm; rw [pad_length]; omega
  · intro raw fname hlen
    have htake_len : (raw.take APP_MAX_SIZE).length = APP_MAX_SIZE := by
      rw [List.length_take]; omega
    have hpad : pad_to_4byte_boundary (raw.take APP_MAX_SIZE) =
        raw.take APP_MAX_SIZE := by
      rw [pad_eq, htake_len]
      norm_num [APP_MAX_SIZE]
    have hprep : flashPrepare raw fname =
        (raw.take APP_MAX_SIZE,
         [{ stage := "write", progress := 0,
            message := "Loading " ++ fname ++ "..." },
          { stage := "write", progress := 0,
            message := "Truncating to " ++ toString APP_MAX_SIZE ++ " bytes" }]) := by
      simp only [flashPrepare]
      rw [if_pos (by omega), hpad]
    have hne : (raw.take APP_MAX_SIZE).isEmpty = false := by
      cases hc : raw.take APP_MAX_SIZE with
      | nil => rw [hc] at htake_len; simp [APP_MAX_SIZE] at htake_len
      | cons b bs => rfl
    refine ⟨by rw [hprep], by rw [hprep]; exact htake_len, ?_, ?_⟩
    · refine ⟨?_, ?_, ?_⟩
      · exact [{ stage := "reset", progress := 0, message := "Resetting..." },
          { stage := "reset", progress := 100, message := "Bootloader ready" },
          { stage := "erase", progress := 0, message := "Erasing flash memory..." },
          { stage := "erase", progress := 100, message := "Flash erased successfully" },
          { stage := "write", progress := 0, message := "Writing firmware..." },
          { stage := "write", progress := 100, message := "Write complete" },
          { stage := "verify", progress := 0, message := "Verifying flash..." },
          { stage := "verify", progress := 100, message := "Verification successful" },
          { stage := "jump", progress := 0, message := "Starting application..." },
          { stage := "jump", progress := 100, message := "Application started" },
          { stage := "complete", progress := 100,
            message := "Flashing completed successfully!" }]
      · simp [flash_firmware, hprep, write_firmware, verify_flash,
          idealTarget, TargetResp.isAck, hne]
      · simp
    · simp [flash_firmware, hprep, write_firmware, verify_flash,
        idealTarget, TargetResp.isAck, hne]

/-- Concrete instance of `c5_padding_and_truncation`: an image one byte
larger than the application region is truncated to exactly
`APP_MAX_SIZE` bytes and the flash still succeeds. -/
theorem c5_witness :
    APP_MAX_SIZE < (List.replicate (APP_MAX_SIZE + 1) (0 : Nat)).length ∧
    (flashPrepare (List.replicate (APP_MAX_SIZE + 1) (0 : Nat)) "big.bin").1.length =
      APP_MAX_SIZE ∧
    (flash_firmware (List.replicate (APP_MAX_SIZE + 1) (0 : Nat)) "big.bin"
      idealTarget).success = true := by
  have h : APP_MAX_SIZE < (List.replicate (APP_MAX_SIZE + 1) (0 : Nat)).length := by
    simp
  have h2 := c5_padding_and_truncation.2 (List.replicate (APP_MAX_SIZE + 1) 0)
    "big.bin" h
  exact ⟨h, h2.2.1, h2.2.2.2⟩

/-- Claim C4, corrected.  There is no size-0 rejection anywhere in the
flashing path: an empty image is padded to the (still empty) image, the
write loop sends no `WRITE_DATA` command at all, and — on a target that
acknowledges the reset/erase/set-address/jump exchanges — the whole flash
reports success (having erased the application flash).  A size-1 image is
padded to 4 bytes and accepted, producing exactly one 4-byte write. -/
theorem c4_size_validation_amended :
    (flash_firmware [] "firmware.bin" idealTarget).success = true ∧
    (flash_firmware [] "firmware.bin" idealTarget).writes = [] ∧
    (∀ b : Nat,
      pad_to_4byte_boundary [b] = [b, 0xFF, 0xFF, 0xFF] ∧
      (flash_firmware [b] "firmware.bin" idealTarget).success = true ∧
      (flash_firmware [b] "firmware.bin" idealTarget).writes =
        [[b, 0xFF, 0xFF, 0xFF]]) := by
  refine ⟨by decide, by decide, ?_⟩
  intro b
  have hpad : pad_to_4byte_boundary [b] = [b, 0xFF, 0xFF, 0xFF] := by
    rw [pad_eq]; rfl
  have hchunks : writeChunks [b, 0xFF, 0xFF, 0xFF] = [[b, 0xFF, 0xFF, 0xFF]] := by
    rw [writeChunks]
    simp [writeChunks]
  refine ⟨hpad, ?_, ?_⟩
  · simp [flash_firmware, flashPrepare, APP_MAX_SIZE, hpad, write_firmware,
      verify_flash, idealTarget, TargetResp.isAck]
  · simp [flash_firmware, flashPrepare, APP_MAX_SIZE, hpad, write_firmware,
      verify_flash, idealTarget, TargetResp.isAck, hchunks]

/-- Claim C4 as stated is false: a size-0 firmware image given to
`flash_firmware` is not rejected with any error — against an
acknowledging target the operation runs every stage, performs no write,
and reports overall success, ending on the `complete` progress event. -/
theorem c4_counterexample :
    (flash_firmware [] "empty.bin" idealTarget).success ≠ false ∧
    (flash_firmware [] "empty.bin" idealTarget).writes = [] ∧
    (flash_firmware [] "empty.bin" idealTarget).events.getLast? =
      some { stage := "complete", progress := 100,
             message := "Flashing completed successfully!" } := by
  refine ⟨by decide, by decide, by decide⟩

/-! ### NetworkRelay receive-loop deduplication (claim C3) -/

theorem buildCANMessage_timestamp (m : NetworkCAN.ServerMsg)
    (f : NetworkCAN.CANMessage) (h : NetworkCAN.buildCANMessage m = .ok f) :
    f.timestamp = m.timestamp := by
  unfold NetworkCAN.buildCANMessage at h
  cases hid : NetworkCAN.extractId m.idField with
  | error e => rw [hid] at h; simp at h
  | ok v =>
    rw [hid] at h
    cases hdata : NetworkCAN.parseData m.dataField m.dataHexField with
    | error e => rw [hdata] at h; simp at h
    | ok d =>
      rw [hdata] at h
      simp only [Except.ok.injEq] at h
      rw [← h]; rfl

theorem pollIteration_spec (batch : List NetworkCAN.ServerMsg) (mark : Int) :
    mark ≤ (NetworkCAN.pollIteration mark batch).1 ∧
    (∀ f ∈ (NetworkCAN.pollIteration mark batch).2,
      mark < f.timestamp ∧
        f.timestamp ≤ (NetworkCAN.pollIteration mark batch).1) ∧
    List.Pairwise (fun a b => a.timestamp < b.timestamp)
      (NetworkCAN.pollIteration mark batch).2 := by
  induction batch generalizing mark with
  | nil => simp [NetworkCAN.pollIteration]
  | cons m rest ih =>
    by_cases hts : m.timestamp ≤ mark
    · simpa [NetworkCAN.pollIteration, hts] using ih mark
    · push_neg at hts
      cases hb : NetworkCAN.buildCANMessage m with
      | error e =>
        simp only [NetworkCAN.pollIteration, if_neg (by omega : ¬ m.timestamp ≤ mark), hb]
        refine ⟨le_of_lt hts, by simp, by simp⟩
      | ok f =>
        have hts' : f.timestamp = m.timestamp := buildCANMessage_timestamp m f hb
        have ihm := ih m.timestamp
        simp only [NetworkCAN.pollIteration,
          if_neg (by omega : ¬ m.timestamp ≤ mark), hb]
        refine ⟨le_trans (le_of_lt hts) ihm.1, ?_, ?_⟩
        · intro g hg
          rcases List.mem_cons.mp hg with hgf | hg'
          · subst hgf
            exact ⟨by rw [hts']; exact hts, by rw [hts']; exact ihm.1⟩
          · have := ihm.2.1 g hg'
            exact ⟨lt_trans hts this.1, this.2⟩
        · refine List.Pairwise.cons ?_ ihm.2.2
          intro g hg
          rw [hts']
          exact (ihm.2.1 g hg).1

theorem receive_loop_spec (batches : List (List NetworkCAN.ServerMsg))
    (mark : Int) :
    (∀ f ∈ NetworkCAN.receive_loop mark batches, mark < f.timestamp) ∧
    List.Pairwise (fun a b => a.timestamp < b.timestamp)
      (NetworkCAN.receive_loop mark batches) := by
  induction batches generalizing mark with
  | nil => simp [NetworkCAN.receive_loop]
  | cons batch bs ih =>
    have hp := pollIteration_spec (NetworkCAN.sortByTimestamp batch) mark
    set r := NetworkCAN.pollIteration mark (NetworkCAN.sortByTimestamp batch)
    have ihr := ih r.1
    constructor
    · intro f hf
      rw [NetworkCAN.receive_loop] at hf
      rcases List.mem_append.mp hf with hf1 | hf2
      · exact (hp.2.1 f hf1).1
      · exact lt_of_le_of_lt hp.1 (ihr.1 f hf2)
    · rw [NetworkCAN.receive_loop]
      rw [List.pairwise_append]
      refine ⟨hp.2.2, ihr.2, ?_⟩
      intro a ha b hb
      exact lt_of_le_of_lt ((hp.2.1 a ha).2) (ihr.1 b hb)

/-- Claim C3, confirmed.  In the relay driver, each polled batch is sorted
by timestamp before dispatch (`sortByTimestamp` inside `receive_loop`), the
receive thread starts with the server buffer cleared and the high-water
mark at 0 (`receiveDelivered`), every frame with timestamp ≤ the mark is
discarded, and the mark advances to each accepted frame's timestamp.
Consequently, over the whole session the timestamps of the frames handed
to the receive callback are strictly increasing — so no frame is ever
delivered twice — and all of them postdate the initial mark 0. -/
theorem c3_delivery_strictly_increasing :
    ∀ batches : List (List NetworkCAN.ServerMsg),
      List.Pairwise (fun a b => a.timestamp < b.timestamp)
        (NetworkCAN.receiveDelivered batches) ∧
      List.Pairwise (fun a b => a ≠ b) (NetworkCAN.receiveDelivered batches) ∧
      ∀ f ∈ NetworkCAN.receiveDelivered batches, 0 < f.timestamp := by
  intro batches
  have h := receive_loop_spec batches 0
  refine ⟨h.2, ?_, h.1⟩
  refine h.2.imp ?_
  intro a b hab heq
  rw [heq] at hab
  exact lt_irrefl _ hab

/-! ### Addressing keys: per-ID statistics and decode lookups (claim C1) -/

theorem map_fst_update (table : List (Nat × GUI.Row)) (i : Nat)
    (f : GUI.Row → GUI.Row) :
    (table.map (fun kv => if kv.1 = i then (kv.1, f kv.2) else kv)).map
        Prod.fst =
      table.map Prod.fst := by
  induction table with
  | nil => rfl
  | cons kv rest ih =>
    by_cases h : kv.1 = i <;> simp [h, ih]

/-- Claim C1, corrected.  The numeric id alone — not the pair
`(id, extended)` — is the statistics key: `_on_message_received` keys its
table by `msg.id` only, so a standard and an extended frame with the same
numeric id share one entry whose count aggregates both (see
`c1_counterexample`).  The webserver's decode lookup likewise collapses
the pair: for any id in the 29-bit range, `decode_message` computes the
same lookup id whether `is_extended` is true or false.  Only the GUI's own
DBC lookup keeps the two apart, by OR-ing bit 31 into extended ids. -/
theorem c1_addressing_key_amended :
    (∀ table m now,
      (GUI.on_message_received table m now).map Prod.fst =
        if (table.lookup m.id).isSome then table.map Prod.fst
        else table.map Prod.fst ++ [m.id]) ∧
    (∀ m1 m2 : GUI.RxMsg, ∀ now1 now2 : Nat, m1.id = m2.id →
      GUI.on_message_received (GUI.on_message_received [] m1 now1) m2 now2 =
        [(m1.id, GUI.updateRow (GUI.freshRow m1 now1) m2 now2)] ∧
      (GUI.updateRow (GUI.freshRow m1 now1) m2 now2).count = 2) ∧
    (∀ id : Nat, id ≤ 0x1FFFFFFF →
      WebAPI.decodeLookupId id true = WebAPI.decodeLookupId id false) ∧
    (∀ id : Nat, id < 0x80000000 →
      GUI.decodeLookupId id true ≠ GUI.decodeLookupId id false) := by
  refine ⟨?_, ?_, ?_, ?_⟩
  · intro table m now
    cases hl : table.lookup m.id with
    | some r =>
      simp only [GUI.on_message_received, hl, Option.isSome_some, if_true]
      exact map_fst_update table m.id (fun r => GUI.updateRow r m now)
    | none => simp [GUI.on_message_received, hl]
  · intro m1 m2 now1 now2 h12
    have h1 : GUI.on_message_received [] m1 now1 =
        [(m1.id, GUI.freshRow m1 now1)] := by
      simp [GUI.on_message_received, List.lookup]
    rw [h1]
    constructor
    · simp [GUI.on_message_received, List.lookup, ← h12]
    · simp [GUI.updateRow, GUI.freshRow]
  · intro id hid
    have hmask : id &&& 0x1FFFFFFF = id := by
      have h29 : (0x1FFFFFFF : Nat) = 2 ^ 29 - 1 := by norm_num
      rw [h29, Nat.and_pow_two_sub_one_eq_mod]
      omega
    simp [WebAPI.decodeLookupId, hmask]
  · intro id hid
    have ht : GUI.decodeLookupId id true = id ||| 0x80000000 := rfl
    have hf : GUI.decodeLookupId id false = id := rfl
    rw [ht, hf]
    intro he
    have h31 : (0x80000000 : Nat) = 2 ^ 31 := by norm_num
    rw [h31] at he
    have h1 : (id ||| 2 ^ 31).testBit 31 = true := by
      rw [Nat.testBit_or]
      exact Bool.or_eq_true_iff.mpr (Or.inr Nat.testBit_two_pow_self)
    rw [he] at h1
    have h2 := Nat.testBit_lt_two_pow (by omega : id < 2 ^ 31)
    rw [h1] at h2
    exact Bool.noConfusion h2

/-- Concrete instance of `c1_addressing_key_amended` at id `0x100`: the
webserver decode lookup cannot tell the standard and extended frames
apart, while the GUI DBC lookup can. -/
theorem c1_witness :
    WebAPI.decodeLookupId 0x100 true = WebAPI.decodeLookupId 0x100 false ∧
    GUI.decodeLookupId 0x100 true ≠ GUI.decodeLookupId 0x100 false ∧
    (GUI.updateRow (GUI.freshRow ⟨0x100, [0xAA], false, false, 1⟩ 10)
      ⟨0x100, [0xBB], true, false, 1⟩ 25).count = 2 := by
  refine ⟨c1_addressing_key_amended.2.2.1 0x100 (by norm_num),
    c1_addressing_key_amended.2.2.2 0x100 (by norm_num),
    (c1_addressing_key_amended.2.1 ⟨0x100, [0xAA], false, false, 1⟩
      ⟨0x100, [0xBB], true, false, 1⟩ 10 25 rfl).2⟩

/-- Claim C1 as stated is false at id `0x100`: after receiving
`id=0x100, extended=false` and then `id=0x100, extended=true`, the GUI
statistics table holds one entry (count 2), not two disjoint entries, and
the webserver decode lookup resolves both frames to the same key. -/
theorem c1_counterexample :
    (GUI.on_message_received
        (GUI.on_message_received [] ⟨0x100, [0xAA], false, false, 1⟩ 10)
        ⟨0x100, [0xBB], true, false, 1⟩ 25).length = 1 ∧
    WebAPI.decodeLookupId 0x100 true = WebAPI.decodeLookupId 0x100 false := by
  exact ⟨by decide, by decide⟩

/-! ### Relay/Bluetooth message parsing (claim C7) -/

theorem hexDigitsVal_ok (s : List Char) : ∀ acc : Nat,
    (∀ c ∈ s, (hexVal? c).isSome) →
    hexDigitsVal acc s =
      .ok (s.foldl (fun a c => 16 * a + ((hexVal? c).getD 0)) acc) := by
  induction s with
  | nil => intro acc _; rfl
  | cons c rest ih =>
    intro acc h
    obtain ⟨v, hv⟩ := Option.isSome_iff_exists.mp (h c (by simp))
    have hrest : ∀ c' ∈ rest, (hexVal? c').isSome :=
      fun c' hc' => h c' (by simp [hc'])
    simp only [hexDigitsVal, hv, List.foldl_cons, Option.getD_some]
    exact ih _ hrest

theorem hexVal_hexCharOf : ∀ d < 16, hexVal? (hexCharOf d) = some d := by decide

theorem hexCharOf_ne_space : ∀ d < 16, hexCharOf d ≠ ' ' := by decide

theorem bytesToHexChars_no_space (l : List Nat) (h : ∀ b ∈ l, b < 256) :
    ∀ c ∈ bytesToHexChars l, c ≠ ' ' := by
  induction l with
  | nil => simp [bytesToHexChars]
  | cons b rest ih =>
    have hb := h b (by simp)
    intro c hc
    simp only [bytesToHexChars, List.mem_cons] at hc
    rcases hc with hc | hc | hc
    · rw [hc]; exact hexCharOf_ne_space _ (by omega)
    · rw [hc]; exact hexCharOf_ne_space _ (by omega)
    · exact ih (fun x hx => h x (by simp [hx])) c hc

theorem pyFromHex_bytesToHexChars (l : List Nat) (h : ∀ b ∈ l, b < 256) :
    pyFromHex (bytesToHexChars l) = .ok l := by
  induction l with
  | nil => rfl
  | cons b rest ih =>
    have hb := h b (by simp)
    have h1 : hexVal? (hexCharOf (b / 16)) = some (b / 16) :=
      hexVal_hexCharOf _ (by omega)
    have h2 : hexVal? (hexCharOf (b % 16)) = some (b % 16) :=
      hexVal_hexCharOf _ (by omega)
    have hbr : 16 * (b / 16) + b % 16 = b := by omega
    simp only [bytesToHexChars, pyFromHex, h1, h2,
      ih (fun x hx => h x (by simp [hx])), hbr]

theorem filter_ne_space_idem (s : List Char) :
    (s.filter (fun c => c ≠ ' ')).filter (fun c => c ≠ ' ') =
      s.filter (fun c => c ≠ ' ') := by
  apply List.filter_eq_self.mpr
  intro a ha
  exact (List.mem_filter.mp ha).2

theorem bluetooth_parseData_str (s : List Char) :
    Bluetooth.parseData none (some (.str s)) =
      (if (s.filter (fun c => c ≠ ' ')).isEmpty then .ok []
       else pyFromHex (s.filter (fun c => c ≠ ' '))) := rfl

theorem network_parseData_str (s : List Char) :
    NetworkCAN.parseData (.str s) none =
      pyFromHex (s.filter (fun c => c ≠ ' ')) := by
  cases h : pyFromHex (s.filter fun c => c ≠ ' ') with
  | error e => simp only [NetworkCAN.parseData, h]
  | ok r => simp only [NetworkCAN.parseData, h]; cases r <;> rfl

theorem network_parseData_list (l : List Nat)
    (h : (l.all fun b => decide (b < 256)) = true) :
    NetworkCAN.parseData (.list l) none = .ok l := by
  unfold NetworkCAN.parseData
  cases l <;> simp [h]

/-- Claim C7, corrected.  The Bluetooth driver's parser accepts the
arbitration id as an integer or as a `"0x..."` hex string and yields the
same numeric id either way; both drivers accept payload data as a byte
array or as a hex string — with or without spaces — and yield the same
byte sequence.  The amendment concerns the relay (`NetworkCAN`) driver's
id handling: it never converts string ids, so an id delivered as a hex
string raises `TypeError` (a `str`/`int` comparison in the `is_extended`
default on line 435) instead of yielding the numeric id
(see `c7_counterexample`). -/
theorem c7_parser_equivalence_amended :
    (∀ s : List Char, s ≠ [] → (∀ c ∈ s, (hexVal? c).isSome) →
      Bluetooth.parseId (.str ('0' :: 'x' :: s)) = .ok (hexToNat s) ∧
      Bluetooth.parseId (.int (hexToNat s)) = .ok (hexToNat s)) ∧
    (∀ l : List Nat, (∀ b ∈ l, b < 256) →
      Bluetooth.parseData none (some (.list l)) = .ok l ∧
      Bluetooth.parseData (some (bytesToHexChars l)) none = .ok l ∧
      NetworkCAN.parseData (.list l) none = .ok l ∧
      NetworkCAN.parseData (.str (bytesToHexChars l)) none = .ok l) ∧
    (∀ s : List Char,
      Bluetooth.parseData none (some (.str s)) =
        Bluetooth.parseData none (some (.str (s.filter (fun c => c ≠ ' ')))) ∧
      NetworkCAN.parseData (.str s) none =
        NetworkCAN.parseData (.str (s.filter (fun c => c ≠ ' '))) none) ∧
    (∀ s : List Char, NetworkCAN.extractId (.str s) = .error ()) := by
  refine ⟨?_, ?_, ?_, fun s => rfl⟩
  · intro s hne hdig
    constructor
    · have h1 : Bluetooth.parseId (.str ('0' :: 'x' :: s)) =
          (if s.isEmpty then .error () else hexDigitsVal 0 s) := rfl
      have h2 : s.isEmpty = false := by
        cases s with
        | nil => exact absurd rfl hne
        | cons c cs => rfl
      rw [h1, h2]
      simp only [Bool.false_eq_true, if_false]
      rw [hexDigitsVal_ok s 0 hdig]
      rfl
    · rfl
  · intro l hl
    have hall : (l.all fun b => decide (b < 256)) = true := by
      rw [List.all_eq_true]
      intro b hb
      exact decide_eq_true (hl b hb)
    have hfromhex := pyFromHex_bytesToHexChars l hl
    have hfilter : (bytesToHexChars l).filter (fun c => c ≠ ' ') =
        bytesToHexChars l := by
      apply List.filter_eq_self.mpr
      intro c hc
      simpa using bytesToHexChars_no_space l hl c hc
    refine ⟨by simp [Bluetooth.parseData, hall], ?_, network_parseData_list l hall, ?_⟩
    · cases l with
      | nil => rfl
      | cons b rest =>
        have hv : Bluetooth.parseData (some (bytesToHexChars (b :: rest))) none =
            (if ((bytesToHexChars (b :: rest)).filter
                  (fun c => c ≠ ' ')).isEmpty then .ok []
             else pyFromHex ((bytesToHexChars (b :: rest)).filter
                  (fun c => c ≠ ' '))) := rfl
        rw [hv, hfilter]
        have hne2 : (bytesToHexChars (b :: rest)).isEmpty = false := rfl
        rw [hne2]
        simp only [Bool.false_eq_true, if_false]
        exact hfromhex
    · rw [network_parseData_str, hfilter]
      exact hfromhex
  · intro s
    constructor
    · rw [bluetooth_parseData_str, bluetooth_parseData_str, filter_ne_space_idem]
    · rw [network_parseData_str, network_parseData_str, filter_ne_space_idem]

/-- Concrete instance of `c7_parser_equivalence_amended`: the hex string
`"0xde"` and the integer 222 parse to the same Bluetooth id, and the byte
array `[0xDE, 0xAD]` and the hex string `"dead"` parse to the same
payload in both drivers. -/
theorem c7_witness :
    Bluetooth.parseId (.str ('0' :: 'x' :: 'd' :: 'e' :: [])) = .ok 222 ∧
    Bluetooth.parseId (.int 222) = .ok 222 ∧
    Bluetooth.parseData none (some (.list [0xDE, 0xAD])) = .ok [0xDE, 0xAD] ∧
    Bluetooth.parseData (some (bytesToHexChars [0xDE, 0xAD])) none =
      .ok [0xDE, 0xAD] := by
  have hid := c7_parser_equivalence_amended.1 ['d', 'e'] (by decide) (by decide)
  have hdata := c7_parser_equivalence_amended.2.1 [0xDE, 0xAD] (by decide)
  have hv : hexToNat ['d', 'e'] = 222 := by decide
  rw [hv] at hid
  exact ⟨hid.1, hid.2, hdata.1, hdata.2.1⟩

/-- Claim C7 as stated is false for the relay driver: an arbitration id
delivered as the hex string `"0x100"` does not parse to the numeric id
0x100 — the relay driver raises `TypeError` on it — while the same id as
an integer is accepted verbatim (and the Bluetooth driver parses both). -/
theorem c7_counterexample :
    NetworkCAN.extractId (.str ('0' :: 'x' :: '1' :: '0' :: '0' :: [])) =
      .error () ∧
    NetworkCAN.extractId (.int 0x100) = .ok 0x100 ∧
    NetworkCAN.extractId (.str ('0' :: 'x' :: '1' :: '0' :: '0' :: [])) ≠
      NetworkCAN.extractId (.int 0x100) ∧
    Bluetooth.parseId (.str ('0' :: 'x' :: '1' :: '0' :: '0' :: [])) =
      .ok 0x100 := by
  refine ⟨rfl, rfl, by decide, by decide⟩

/-! ### Constructed frame dlc (claim C8) -/

/-- Claim C8, corrected.  The Bluetooth driver always sets
`dlc = len(data)`.  The relay driver does so only when the server message
carries no `dlc` key (the `.get('dlc', len(raw_data))` default) or carries
`dlc = 0` (fixed up by `CANMessage.__post_init__`); a non-zero
server-supplied `dlc` is taken verbatim, even when it differs from the
payload length, and no bound of 8 is enforced on either field (see
`c8_counterexample`). -/
theorem c8_dlc_amended :
    (∀ (m : NetworkCAN.ServerMsg) (f : NetworkCAN.CANMessage),
      NetworkCAN.buildCANMessage m = .ok f →
      ((m.dlcField = none ∨ m.dlcField = some 0) → f.dlc = f.data.length) ∧
      (∀ d, m.dlcField = some d → d ≠ 0 → f.dlc = d)) ∧
    (∀ (m : Bluetooth.ServerMsg) (now : Int) (f : Bluetooth.CANMessage),
      Bluetooth.parse_message m now = some f → f.dlc = f.data.length) := by
  constructor
  · intro m f h
    unfold NetworkCAN.buildCANMessage at h
    cases hid : NetworkCAN.extractId m.idField with
    | error e => rw [hid] at h; simp at h
    | ok v =>
      rw [hid] at h
      cases hdata : NetworkCAN.parseData m.dataField m.dataHexField with
      | error e => rw [hdata] at h; simp at h
      | ok d =>
        rw [hdata] at h
        simp only [Except.ok.injEq] at h
        subst h
        constructor
        · rintro (hd | hd) <;> simp [NetworkCAN.mkCANMessage, hd]
        · intro dv hd hdv
          simp [NetworkCAN.mkCANMessage, hd, hdv]
  · intro m now f h
    unfold Bluetooth.parse_message at h
    cases hid : Bluetooth.parseId m.idField with
    | error e => rw [hid] at h; simp at h
    | ok v =>
      rw [hid] at h
      cases hdata : Bluetooth.parseData m.dataHexField m.dataField with
      | error e => rw [hdata] at h; simp at h
      | ok d =>
        rw [hdata] at h
        simp only [Option.some.injEq] at h
        subst h
        rfl

/-- Concrete instance of `c8_dlc_amended`: a server message without a
`dlc` key yields a frame whose `dlc` equals its payload length. -/
theorem c8_witness :
    NetworkCAN.buildCANMessage
        ⟨1, .int 0x123, .list [1, 2, 3], none, none, none, none⟩ =
      .ok ⟨0x123, [1, 2, 3], 1, false, false, 3⟩ ∧
    (⟨0x123, [1, 2, 3], 1, false, false, 3⟩ :
      NetworkCAN.CANMessage).dlc =
      (⟨0x123, [1, 2, 3], 1, false, false, 3⟩ :
        NetworkCAN.CANMessage).data.length := by
  refine ⟨by decide, ?_⟩
  exact (c8_dlc_amended.1 ⟨1, .int 0x123, .list [1, 2, 3], none, none, none, none⟩
    ⟨0x123, [1, 2, 3], 1, false, false, 3⟩ (by decide)).1 (Or.inl rfl)

/-- Claim C8 as stated is false: a relay server message with payload
`[1, 2, 3]` and a `dlc` field of 8 is delivered as a frame with
`dlc = 8 ≠ 3 = len(data)`, and a 9-byte payload is delivered with
`dlc = 9 > 8` — neither `dlc == len(data)` nor `dlc ≤ 8` is enforced on
the receive path. -/
theorem c8_counterexample :
    NetworkCAN.buildCANMessage
        ⟨1, .int 0x123, .list [1, 2, 3], none, none, none, some 8⟩ =
      .ok ⟨0x123, [1, 2, 3], 1, false, false, 8⟩ ∧
    NetworkCAN.buildCANMessage
        ⟨2, .int 5, .list [1, 2, 3, 4, 5, 6, 7, 8, 9], none, none, none, none⟩ =
      .ok ⟨5, [1, 2, 3, 4, 5, 6, 7, 8, 9], 2, false, false, 9⟩ := by
  exact ⟨by decide, by decide⟩

/-! ### Transmit-list save/load round trip (claim C9) -/

theorem decodeIntList_map (l : List Int) :
    WebAPI.decodeIntList (l.map (fun n => .int n)) = .ok l := by
  induction l with
  | nil => rfl
  | cons n rest ih => simp [WebAPI.decodeIntList, ih]

theorem decodeSignals_map (kvs : List (String × WebAPI.SigVal)) :
    WebAPI.decodeSignals (kvs.map (fun p =>
      (p.1,
       match p.2 with
       | .sint n => WebAPI.JVal.int n
       | .sfloat x => WebAPI.JVal.float x
       | .sstr s => WebAPI.JVal.str s))) = .ok kvs := by
  induction kvs with
  | nil => rfl
  | cons p rest ih =>
    obtain ⟨k, v⟩ := p
    cases v <;> simp [WebAPI.decodeSignals, WebAPI.decodeSigVal, ih]

theorem decodeItem_encodeItem (it : WebAPI.TransmitListItem) :
    WebAPI.decodeItem (WebAPI.encodeItem it) = .ok it := by
  obtain ⟨iid, cid, dat, ext, mname, sigs, desc⟩ := it
  cases mname <;> cases sigs <;> cases desc <;>
    simp [WebAPI.encodeItem, WebAPI.decodeItem, List.lookup,
      decodeIntList_map, decodeSignals_map]

theorem decodeItems_map (items : List WebAPI.TransmitListItem) :
    WebAPI.decodeItems (items.map WebAPI.encodeItem) = .ok items := by
  induction items with
  | nil => rfl
  | cons it rest ih =>
    simp [WebAPI.decodeItems, decodeItem_encodeItem, ih]

theorem lookup_append_right (files : List (String × WebAPI.JVal))
    (k : String) (v : WebAPI.JVal) (h : files.lookup k = none) :
    (files ++ [(k, v)]).lookup k = some v := by
  induction files with
  | nil => simp [List.lookup]
  | cons kv rest ih =>
    rw [List.cons_append]
    simp only [List.lookup] at h ⊢
    cases hbeq : (k == kv.1) with
    | true => rw [hbeq] at h; simp at h
    | false => rw [hbeq] at h; exact ih h

theorem lookup_map_update (files : List (String × WebAPI.JVal))
    (k : String) (v : WebAPI.JVal) (h : (files.lookup k).isSome) :
    ((files.map fun kv => if kv.1 = k then (kv.1, v) else kv).lookup k) =
      some v := by
  induction files with
  | nil => simp [List.lookup] at h
  | cons kv rest ih =>
    obtain ⟨k1, v1⟩ := kv
    by_cases hk : k1 = k
    · subst hk
      rw [List.map_cons, if_pos rfl]
      simp [List.lookup]
    · have hbeq : (k == k1) = false := by
        rw [beq_eq_false_iff_ne]; exact fun he => hk he.symm
      simp only [List.lookup, hbeq] at h
      rw [List.map_cons, if_neg hk]
      simp only [List.lookup, hbeq]
      exact ih h

theorem lookup_storePut (files : List (String × WebAPI.JVal))
    (k : String) (v : WebAPI.JVal) :
    (WebAPI.storePut files k v).lookup k = some v := by
  unfold WebAPI.storePut
  cases h : files.lookup k with
  | none => exact lookup_append_right files k v h
  | some w => exact lookup_map_update files k v (by rw [h]; rfl)

/-- Claim C9, confirmed.  For every transmit list, every starting state of
the transmit-list store and every dbc file name, saving the list and then
loading it back for the same dbc-file stem yields exactly the same item
sequence, item for item — `can_id`, `data`, the `is_extended` flag and
all optional metadata included. -/
theorem c9_transmit_list_roundtrip :
    ∀ (files : List (String × WebAPI.JVal)) (dbc_file : String)
      (items : List WebAPI.TransmitListItem),
      WebAPI.load_transmit_list (WebAPI.save_transmit_list files dbc_file items)
        dbc_file = .ok items := by
  intro files dbc_file items
  unfold WebAPI.save_transmit_list WebAPI.load_transmit_list
  rw [lookup_storePut]
  exact decodeItems_map items
